import Mathlib

/-!
Verification of a MIDI routing engine.

The development shallowly embeds the core of the engine:

* `types.rs` — the route data model (`ChannelFilter`, `CcTarget`, `CcMapping`,
  `Route`) and the observable clock state;
* `router.rs` — the pure routing functions `get_channel_from_bytes`,
  `should_route`, `is_cc_message`, `apply_cc_mappings` and the activity parser
  `parse_midi_message`;
* `clock.rs` — the drift-compensated 24-PPQN clock generator, with the
  monotonic instant made an explicit parameter and `f64` modelled by an
  inductive carrying exact rationals plus the infinities and NaN;
* `engine.rs` — the per-packet step of the engine loop (transport handling,
  activity publication, per-route dispatch), with the effects (events,
  broadcasts, per-destination sends) returned explicitly.

Bytes are modelled as `Nat` (all stored values are `u8`, so arithmetic below
never overflows eight bits when the inputs are below 256; where a claim
quantifies over `u8` values the bound appears as a hypothesis).
-/

namespace MidiRouter

/-- A CC-mapping destination: target CC number and list of destination
channels as stored (1-indexed in the UI).  From `types.rs`: `struct CcTarget
{ cc: u8, channels: Vec<u8> }`. -/
structure CcTarget where
  cc : Nat
  channels : List Nat
deriving Repr, DecidableEq

/-- From `types.rs`: `struct CcMapping { source_cc: u8, targets: Vec<CcTarget> }`. -/
structure CcMapping where
  source_cc : Nat
  targets : List CcTarget
deriving Repr, DecidableEq

/-- From `types.rs`: `enum ChannelFilter { All, Only(Vec<u8>), Except(Vec<u8>) }`. -/
inductive ChannelFilter where
  | All : ChannelFilter
  | Only : List Nat → ChannelFilter
  | Except : List Nat → ChannelFilter
deriving Repr, DecidableEq

/-- From `types.rs`: `struct Route`.  The UUID field plays no role in routing
and is omitted; `PortId` equality is name equality, so ports are plain
strings. -/
structure Route where
  source : String
  destination : String
  enabled : Bool
  channels : ChannelFilter
  cc_passthrough : Bool
  cc_mappings : List CcMapping
deriving Repr, DecidableEq

/-- From `types.rs`: `ChannelFilter::passes`. -/
def ChannelFilter.passes : ChannelFilter → Nat → Bool
  | .All, _ => true
  | .Only cs, channel => cs.contains channel
  | .Except cs, channel => !(cs.contains channel)

/-- From `router.rs`: `get_channel_from_bytes`.  Channel messages have status
`0x80..0xEF`; the channel is the low nibble. -/
def get_channel_from_bytes (bytes : List Nat) : Option Nat :=
  match bytes with
  | [] => none
  | status :: _ =>
    if 0x80 ≤ status ∧ status < 0xF0 then some (status &&& 0x0F) else none

/-- From `router.rs`: `should_route`. -/
def should_route (bytes : List Nat) (filter : ChannelFilter) : Bool :=
  match get_channel_from_bytes bytes with
  | some ch => filter.passes ch
  | none => true

/-- From `router.rs`: `is_cc_message` — at least 3 bytes and status nibble
`0xB`. -/
def is_cc_message : List Nat → Bool
  | status :: _ :: _ :: _ => (status &&& 0xF0) == 0xB0
  | _ => false

/-- From `router.rs`, `apply_cc_mappings` line 146sq: the status byte emitted
for a stored target channel `ch`:
`let channel = if *ch > 0 { ch - 1 } else { 0 }; 0xB0 | channel`. -/
def target_status_byte (ch : Nat) : Nat :=
  0xB0 ||| (if ch > 0 then ch - 1 else 0)

/-- From `router.rs`, `apply_cc_mappings` lines 144-148: the packets emitted
for one `CcTarget` (one per stored channel, in order). -/
def cc_target_outputs (value : Nat) (target : CcTarget) : List (List Nat) :=
  target.channels.map (fun ch => [target_status_byte ch, target.cc, value])

/-- From `router.rs`: `apply_cc_mappings`.  Non-CC messages pass through
unchanged; a matching mapping (first match wins, via `find`) fans the value
out to every target channel; otherwise `cc_passthrough` decides between
passthrough and drop. -/
def apply_cc_mappings (bytes : List Nat) (route : Route) : List (List Nat) :=
  if !is_cc_message bytes then [bytes]
  else
    let cc_num := bytes.getD 1 0
    let value := bytes.getD 2 0
    match route.cc_mappings.find? (fun m => m.source_cc == cc_num) with
    | some mapping => mapping.targets.flatMap (cc_target_outputs value)
    | none => if route.cc_passthrough then [bytes] else []

/-! ### Clock generator (`clock.rs`)

`bpm` is an `f64`.  We model `f64` values exactly: an inductive with the two
infinities, NaN and finite values carried as rationals.  IEEE comparisons on
NaN are false; Rust `f64::clamp(min, max)` is
`if self < min { self = min }; if self > max { self = max }; self`, which
returns NaN on NaN input.  `Instant` is modelled as a rational number of
seconds; `Instant::duration_since` saturates at zero. -/

/-- Model of an `f64` value: finite values are exact rationals. -/
inductive F64 where
  | nan : F64
  | neginf : F64
  | posinf : F64
  | finite : ℚ → F64
deriving Repr, DecidableEq

/-- IEEE `<` on modelled `f64` values: any comparison with NaN is false. -/
def F64.lt : F64 → F64 → Bool
  | .nan, _ => false
  | _, .nan => false
  | .neginf, .neginf => false
  | .neginf, _ => true
  | _, .neginf => false
  | .posinf, _ => false
  | .finite _, .posinf => true
  | .finite a, .finite b => a < b

/-- Rust `f64::clamp(self, min, max)` for finite `min ≤ max`:
`if self < min { self = min }; if self > max { self = max }; self`.
NaN input yields NaN. -/
def F64.clamp (x min max : F64) : F64 :=
  let x1 := if F64.lt x min then min else x
  if F64.lt max x1 then max else x1

/-- The finite value of a modelled `f64`, in any state where it is finite
(every reachable clock `bpm` is finite unless a NaN was stored). -/
def F64.toRat : F64 → ℚ
  | .finite q => q
  | _ => 0

/-- Is the value finite and inside `[lo, hi]`? -/
def F64.inRange (lo hi : ℚ) : F64 → Bool
  | .finite q => lo ≤ q ∧ q ≤ hi
  | _ => false

/-- From `clock.rs`: `struct ClockGenerator { bpm: f64, running: bool,
last_tick: Option<Instant> }`, instants as rational seconds. -/
structure ClockGenerator where
  bpm : F64
  running : Bool
  last_tick : Option ℚ
deriving Repr, DecidableEq

namespace ClockGenerator

/-- From `clock.rs`: `PULSES_PER_QUARTER_NOTE = 24`. -/
def PULSES_PER_QUARTER_NOTE : Nat := 24

/-- From `clock.rs`: `ClockGenerator::new` — bpm clamped to `[20, 300]`,
stopped, no schedule. -/
def new (bpm : F64) : ClockGenerator :=
  { bpm := bpm.clamp (.finite 20) (.finite 300), running := false, last_tick := none }

/-- From `clock.rs`: `set_bpm` — clamp to `[20, 300]` and store; nothing else
changes. -/
def set_bpm (c : ClockGenerator) (bpm : F64) : ClockGenerator :=
  { c with bpm := bpm.clamp (.finite 20) (.finite 300) }

/-- From `clock.rs`: `start` — running, schedule cleared. -/
def start (c : ClockGenerator) : ClockGenerator :=
  { c with running := true, last_tick := none }

/-- From `clock.rs`: `continue_playback` — running, schedule preserved. -/
def continue_playback (c : ClockGenerator) : ClockGenerator :=
  { c with running := true }

/-- From `clock.rs`: `stop`. -/
def stop (c : ClockGenerator) : ClockGenerator :=
  { c with running := false }

/-- From `clock.rs`: `clock_interval` — `60.0 / bpm / 24` seconds, as an exact
rational (meaningful whenever `bpm` is finite, which holds in every reachable
state). -/
def clock_interval (c : ClockGenerator) : ℚ :=
  60 / c.bpm.toRat / (PULSES_PER_QUARTER_NOTE : ℚ)

/-- Rust `Instant::duration_since`: saturating subtraction of instants. -/
def duration_since (a b : ℚ) : ℚ := max (a - b) 0

/-- From `clock.rs`: `should_tick`, with the call to `Instant::now()` made an
explicit parameter `now`.  Returns the tick decision and the updated
generator. -/
def should_tick (c : ClockGenerator) (now : ℚ) : Bool × ClockGenerator :=
  if !c.running then (false, c)
  else
    let interval := c.clock_interval
    let tick :=
      match c.last_tick with
      | none => true
      | some last => decide (duration_since now last ≥ interval)
    if tick then
      let next_last :=
        match c.last_tick with
        | none => now
        | some last =>
          let next := last + interval
          if duration_since now next > interval then now else next
      (true, { c with last_tick := some next_last })
    else (false, c)

end ClockGenerator

/-- A clock operation, for stating invariants over arbitrary operation
sequences.  `shouldTick` carries the instant that `Instant::now()` returns. -/
inductive ClockOp where
  | setBpm : F64 → ClockOp
  | start : ClockOp
  | continuePlayback : ClockOp
  | stop : ClockOp
  | shouldTick : ℚ → ClockOp
deriving Repr, DecidableEq

/-- Apply one clock operation to the generator state. -/
def applyClockOp (c : ClockGenerator) : ClockOp → ClockGenerator
  | .setBpm x => c.set_bpm x
  | .start => c.start
  | .continuePlayback => c.continue_playback
  | .stop => c.stop
  | .shouldTick now => (c.should_tick now).2

/-- Apply a sequence of clock operations in order. -/
def applyClockOps (c : ClockGenerator) (ops : List ClockOp) : ClockGenerator :=
  ops.foldl applyClockOp c

/-- Does the operation store a NaN bpm?  (The only way to poison the bpm
field.) -/
def ClockOp.storesNan : ClockOp → Bool
  | .setBpm .nan => true
  | _ => false

/-! ### Transport codec (`transport.rs`), parser (`router.rs`) and the
per-packet step of the engine loop (`engine.rs`). -/

/-- From `transport.rs`: the system real-time bytes. -/
def CLOCK : Nat := 0xF8

/-- Start byte `0xFA`. -/
def START : Nat := 0xFA

/-- Continue byte `0xFB`. -/
def CONTINUE : Nat := 0xFB

/-- Stop byte `0xFC`. -/
def STOP : Nat := 0xFC

/-- From `transport.rs`: `is_transport_message` — non-empty and first byte one
of Clock, Start, Continue, Stop. -/
def is_transport_message : List Nat → Bool
  | [] => false
  | b :: _ => b == CLOCK || b == START || b == CONTINUE || b == STOP

/-- From `types.rs`: `enum MessageKind`. -/
inductive MessageKind where
  | NoteOn : Nat → Nat → MessageKind
  | NoteOff : Nat → Nat → MessageKind
  | ControlChange : Nat → Nat → MessageKind
  | ProgramChange : Nat → MessageKind
  | PitchBend : Nat → MessageKind
  | Aftertouch : Nat → MessageKind
  | PolyAftertouch : Nat → Nat → MessageKind
  | SysEx : MessageKind
  | Clock : MessageKind
  | Start : MessageKind
  | Continue : MessageKind
  | Stop : MessageKind
  | Other : MessageKind
deriving Repr, DecidableEq

/-- From `types.rs`: `struct MidiActivity`. -/
structure MidiActivity where
  timestamp : Nat
  port : String
  channel : Option Nat
  kind : MessageKind
  raw : List Nat
deriving Repr, DecidableEq

/-- The result of decoding a packet with the external `wmidi` crate: an
optional channel and a message kind, or `none` when the packet does not
parse.  `wmidi` is a third-party dependency, so the per-packet theorems
quantify over this function. -/
def WmidiDecoder : Type := List Nat → Option (Option Nat × MessageKind)

/-- From `router.rs`: `parse_midi_message`.  Single-byte system real-time
packets are classified directly (lines 9-26); everything else defers to the
`wmidi` decoder. -/
def parse_midi_message (wmidi : WmidiDecoder) (timestamp : Nat) (port : String)
    (bytes : List Nat) : Option MidiActivity :=
  let realtime : Option MessageKind :=
    match bytes with
    | [b] =>
      if b = CLOCK then some .Clock
      else if b = START then some .Start
      else if b = CONTINUE then some .Continue
      else if b = STOP then some .Stop
      else none
    | _ => none
  match realtime with
  | some kind => some { timestamp, port, channel := none, kind, raw := bytes }
  | none =>
    match wmidi bytes with
    | some (channel, kind) => some { timestamp, port, channel, kind, raw := bytes }
    | none => none

/-- From `types.rs`: `struct ClockState { bpm: f64, running: bool }`, the
observable clock state. -/
structure ClockState where
  bpm : F64
  running : Bool
deriving Repr, DecidableEq

/-- The engine events a MIDI packet can generate (from `engine.rs`,
`enum EngineEvent`; `PortsChanged` and `Error` never arise from packet
processing and are omitted from the modelled fragment). -/
inductive EngineEvent where
  | MidiActivityEv : MidiActivity → EngineEvent
  | ClockStateChanged : ClockState → EngineEvent
deriving Repr, DecidableEq

/-- The observable effects of processing one inbound packet in the engine
loop: the updated clock, the events pushed onto the event queue (in order),
the `send_to_all` broadcasts (in order), and the per-route `send_to` calls
`(destination, packet)` (in order). -/
structure PacketResult where
  clock : ClockGenerator
  events : List EngineEvent
  broadcasts : List (List Nat)
  sends : List (String × List Nat)
deriving Repr, DecidableEq

/-- The observable clock state of a generator. -/
def clockStateOf (c : ClockGenerator) : ClockState := ⟨c.bpm, c.running⟩

/-- From `engine.rs`, `engine_loop` lines 161-242: processing of one item
`(port_name, timestamp, bytes)` drained from the MIDI queue.  First the
transport handling (Start/Continue/Stop update the clock only on an actual
state transition, emit `ClockStateChanged` then, and broadcast the byte
unconditionally; inbound Clock is ignored), then the `MidiActivity` event,
then — unless the packet is a transport message — the per-route dispatch
with `should_route` and `apply_cc_mappings`. -/
def process_midi_packet (wmidi : WmidiDecoder) (routes : List Route)
    (clock : ClockGenerator) (port_name : String) (timestamp : Nat)
    (bytes : List Nat) : PacketResult :=
  let transport : ClockGenerator × List EngineEvent × List (List Nat) :=
    match bytes with
    | [] => (clock, [], [])
    | b :: _ =>
      if b = START then
        if !clock.running then
          let c := clock.start
          (c, [.ClockStateChanged (clockStateOf c)], [[START]])
        else (clock, [], [[START]])
      else if b = CONTINUE then
        if !clock.running then
          let c := clock.continue_playback
          (c, [.ClockStateChanged (clockStateOf c)], [[CONTINUE]])
        else (clock, [], [[CONTINUE]])
      else if b = STOP then
        if clock.running then
          let c := clock.stop
          (c, [.ClockStateChanged (clockStateOf c)], [[STOP]])
        else (clock, [], [[STOP]])
      else (clock, [], [])
  let clock1 := transport.1
  let activityEvents : List EngineEvent :=
    match parse_midi_message wmidi timestamp port_name bytes with
    | some a => [.MidiActivityEv a]
    | none => []
  let events := transport.2.1 ++ activityEvents
  if is_transport_message bytes then
    { clock := clock1, events, broadcasts := transport.2.2, sends := [] }
  else
    let sends := routes.flatMap (fun route =>
      if !route.enabled then []
      else if route.source ≠ port_name then []
      else if !should_route bytes route.channels then []
      else (apply_cc_mappings bytes route).map (fun msg => (route.destination, msg)))
    { clock := clock1, events, broadcasts := transport.2.2, sends }

/-! ### Theorems about the router (`router.rs`) -/

/-- The branch of `apply_cc_mappings` taken when the packet is a CC message
and a mapping matches its controller number. -/
lemma apply_cc_mappings_matched (bytes : List Nat) (route : Route) (m : CcMapping)
    (hcc : is_cc_message bytes = true)
    (hfind : route.cc_mappings.find? (fun x => x.source_cc == bytes.getD 1 0) = some m) :
    apply_cc_mappings bytes route = m.targets.flatMap (cc_target_outputs (bytes.getD 2 0)) := by
  have hfind2 : route.cc_mappings.find? (fun x => x.source_cc == bytes[1]?.getD 0) = some m := by
    simpa [List.getD_eq_getElem?_getD] using hfind
  simp [apply_cc_mappings, hcc, hfind2, List.getD_eq_getElem?_getD]

/-- C1 counterexample: the code does not clamp the stored target channel into
`0..15`.  For the stored channel 65, the emitted status byte is
`0xB0 ||| 64 = 0xF0`: its high nibble is `0xF`, not `0xB`, and it differs
from the byte `0xB0 ||| 15 = 0xBF` that clamping `max(65,1) - 1` into
`0..15` would produce. -/
theorem c1_no_clamp_counterexample :
    apply_cc_mappings [0xB0, 1, 100]
        ⟨"A", "B", true, .All, true, [⟨1, [⟨74, [65]⟩]⟩]⟩
      = [[0xF0, 74, 100]]
    ∧ (0xF0 : Nat) >>> 4 ≠ 0xB
    ∧ (0xF0 : Nat) ≠ 0xB0 ||| min (max 65 1 - 1) 15 := by
  decide

/-- C1 (amended): in `apply_cc_mappings`, for every stored target channel
`ch` (a `u8`), the value OR-ed into the emitted status byte is
`max(ch,1) - 1` with **no** clamping; a stored 0 yields low nibble 0, and
whenever `ch ≤ 16` the emitted first byte equals `0xB0 ||| c` for
`c = max(ch,1) - 1 ∈ 0..15`, so its high nibble is `0xB`.  (For `ch ≥ 17`
the high bits of `ch - 1` leak into the status byte and the high nibble can
differ from `0xB`.) -/
theorem c1_channel_coercion (ch cc v : Nat) (hch : ch < 256) :
    apply_cc_mappings [0xB0, 1, v]
        ⟨"A", "B", true, .All, true, [⟨1, [⟨cc, [ch]⟩]⟩]⟩
      = [[0xB0 ||| (max ch 1 - 1), cc, v]]
    ∧ target_status_byte 0 &&& 0x0F = 0
    ∧ (ch ≤ 16 → max ch 1 - 1 < 16 ∧ (0xB0 ||| (max ch 1 - 1)) >>> 4 = 0xB) := by
  have hb : target_status_byte ch = 0xB0 ||| (max ch 1 - 1) := by
    unfold target_status_byte
    rcases Nat.eq_zero_or_pos ch with h | h
    · simp [h]
    · rw [if_pos h]
      congr 1
      omega
  refine ⟨?_, by decide, fun hle => ⟨by omega, ?_⟩⟩
  · rw [apply_cc_mappings_matched [0xB0, 1, v]
      ⟨"A", "B", true, .All, true, [⟨1, [⟨cc, [ch]⟩]⟩]⟩ ⟨1, [⟨cc, [ch]⟩]⟩ rfl rfl]
    simp [cc_target_outputs, hb]
  · interval_cases ch <;> decide

/-- C1 witness: the amended statement at the stored channel 0 (the documented
edge case: low nibble 0, status byte `0xB0`). -/
theorem c1_channel_coercion_witness :
    (0 : Nat) < 256
    ∧ (apply_cc_mappings [0xB0, 1, 100]
          ⟨"A", "B", true, .All, true, [⟨1, [⟨74, [0]⟩]⟩]⟩
        = [[0xB0 ||| (max 0 1 - 1), 74, 100]]
      ∧ target_status_byte 0 &&& 0x0F = 0
      ∧ (0 ≤ 16 → max 0 1 - 1 < 16 ∧ (0xB0 ||| (max 0 1 - 1)) >>> 4 = 0xB)) :=
  ⟨by decide, c1_channel_coercion 0 74 100 (by decide)⟩

/-- C4: for a CC packet whose controller number matches a stored mapping `m`,
`apply_cc_mappings` enumerates the targets of `m` in order and each target's
channels in order (the output is the flattening of the per-target output
lists), its length is the sum over targets of the number of stored channels,
and every emitted packet has exactly 3 bytes, preserves the input value
`bytes[2]` as its third byte, and carries some target's CC number as its
second byte. -/
theorem c4_matched_mapping_outputs (bytes : List Nat) (route : Route) (m : CcMapping)
    (hcc : is_cc_message bytes = true)
    (hfind : route.cc_mappings.find? (fun x => x.source_cc == bytes.getD 1 0) = some m) :
    apply_cc_mappings bytes route
      = (m.targets.map (fun t =>
          t.channels.map (fun ch => [target_status_byte ch, t.cc, bytes.getD 2 0]))).flatten
    ∧ (apply_cc_mappings bytes route).length
      = (m.targets.map (fun t => t.channels.length)).sum
    ∧ ∀ p ∈ apply_cc_mappings bytes route,
        p.length = 3 ∧ p.getD 2 0 = bytes.getD 2 0 ∧ ∃ t ∈ m.targets, p.getD 1 0 = t.cc := by
  have happ := apply_cc_mappings_matched bytes route m hcc hfind
  refine ⟨?_, ?_, ?_⟩
  · rw [happ, List.flatMap_def]
    rfl
  · rw [happ, List.flatMap_def, List.length_flatten, List.map_map]
    congr 1
    apply List.map_congr_left
    intro t _
    simp [cc_target_outputs]
  · intro p hp
    rw [happ, List.mem_flatMap] at hp
    obtain ⟨t, ht, hpt⟩ := hp
    simp only [cc_target_outputs, List.mem_map] at hpt
    obtain ⟨ch, -, rfl⟩ := hpt
    exact ⟨rfl, rfl, t, ht, rfl⟩

/-- C4 witness: the matched-mapping shape at a concrete route with two
targets over channels `[1,2]` and `[3]`. -/
theorem c4_matched_mapping_outputs_witness :
    is_cc_message [0xB0, 1, 64] = true
    ∧ (apply_cc_mappings [0xB0, 1, 64]
          ⟨"A", "B", true, .All, false, [⟨1, [⟨74, [1, 2]⟩, ⟨71, [3]⟩]⟩]⟩).length
      = (([⟨74, [1, 2]⟩, ⟨71, [3]⟩] : List CcTarget).map (fun t => t.channels.length)).sum :=
  ⟨by decide,
    (c4_matched_mapping_outputs [0xB0, 1, 64]
      ⟨"A", "B", true, .All, false, [⟨1, [⟨74, [1, 2]⟩, ⟨71, [3]⟩]⟩]⟩
      ⟨1, [⟨74, [1, 2]⟩, ⟨71, [3]⟩]⟩ (by decide) (by rfl)).2.1⟩

/-- C5: when the first stored mapping matches the incoming controller number,
the remaining mappings are ignored: the result equals the result for the
route whose mapping list is just that first mapping. -/
theorem c5_first_match_wins (bytes : List Nat) (route : Route) (m : CcMapping)
    (ms : List CcMapping) (hmaps : route.cc_mappings = m :: ms)
    (hsrc : m.source_cc = bytes.getD 1 0) :
    apply_cc_mappings bytes route
      = apply_cc_mappings bytes { route with cc_mappings := [m] } := by
  by_cases hcc : is_cc_message bytes
  · simp [apply_cc_mappings, hcc, hmaps, List.find?, hsrc]
  · simp [apply_cc_mappings, hcc]

/-- C5 witness: a route with two mappings for source CC 1 (first: CC 74 on
stored channel 1; second: CC 71 on stored channel 2); input `[0xB0,1,100]`
produces exactly the single output `[0xB0,74,100]` of the first mapping. -/
theorem c5_first_match_wins_witness :
    apply_cc_mappings [0xB0, 1, 100]
        ⟨"A", "B", true, .All, true, [⟨1, [⟨74, [1]⟩]⟩, ⟨1, [⟨71, [2]⟩]⟩]⟩
      = [[0xB0, 74, 100]] := by
  rw [c5_first_match_wins [0xB0, 1, 100]
    ⟨"A", "B", true, .All, true, [⟨1, [⟨74, [1]⟩]⟩, ⟨1, [⟨71, [2]⟩]⟩]⟩
    ⟨1, [⟨74, [1]⟩]⟩ [⟨1, [⟨71, [2]⟩]⟩] rfl rfl]
  decide

/-- C6: non-CC packets always pass through unchanged, and a CC packet with no
mapping matching its controller number passes through when `cc_passthrough`
is set and is dropped otherwise. -/
theorem c6_non_cc_and_unmatched (bytes : List Nat) (route : Route) :
    (is_cc_message bytes = false → apply_cc_mappings bytes route = [bytes])
    ∧ (is_cc_message bytes = true →
        (∀ m ∈ route.cc_mappings, m.source_cc ≠ bytes.getD 1 0) →
        apply_cc_mappings bytes route
          = if route.cc_passthrough then [bytes] else []) := by
  constructor
  · intro h
    simp [apply_cc_mappings, h]
  · intro hcc hnone
    have hfind : route.cc_mappings.find? (fun x => x.source_cc == bytes[1]?.getD 0) = none := by
      rw [List.find?_eq_none]
      intro m hm
      simpa [List.getD_eq_getElem?_getD] using hnone m hm
    simp [apply_cc_mappings, hcc, hfind]

/-- C6 witness: a Note On packet passes a blocking route unchanged, and an
unmatched CC packet on the same route (`cc_passthrough = false`) is
dropped. -/
theorem c6_non_cc_and_unmatched_witness :
    apply_cc_mappings [0x90, 60, 100] ⟨"A", "B", true, .All, false, []⟩
      = [[0x90, 60, 100]]
    ∧ apply_cc_mappings [0xB0, 7, 100] ⟨"A", "B", true, .All, false, []⟩ = [] := by
  constructor
  · exact (c6_non_cc_and_unmatched [0x90, 60, 100] ⟨"A", "B", true, .All, false, []⟩).1
      (by decide)
  · have h := (c6_non_cc_and_unmatched [0xB0, 7, 100]
      ⟨"A", "B", true, .All, false, []⟩).2 (by decide) (by decide)
    simpa using h

/-- C7: `should_route` applies the filter to the status byte's low nibble
exactly when the packet is non-empty and its status lies in `0x80..0xEF`,
and returns true otherwise (empty slices and system statuses pass);
consequently the `All` filter passes everything and, for a Note On built
over any channel `c < 16`, the `Only S` filter passes exactly the channels
contained in `S`. -/
theorem c7_should_route_spec :
    (∀ bytes filter, should_route bytes filter =
      match bytes with
      | [] => true
      | status :: _ =>
        if 0x80 ≤ status ∧ status < 0xF0 then filter.passes (status &&& 0x0F) else true)
    ∧ (∀ bytes, should_route bytes ChannelFilter.All = true)
    ∧ (∀ (c : Fin 16) (S : List Nat) (n v : Nat),
        should_route [0x90 ||| c.val, n, v] (ChannelFilter.Only S) = S.contains c.val) := by
  refine ⟨?_, ?_, ?_⟩
  · intro bytes filter
    match bytes with
    | [] => rfl
    | status :: rest =>
      by_cases h : 0x80 ≤ status ∧ status < 0xF0
      · simp [should_route, get_channel_from_bytes, h]
      · simp [should_route, get_channel_from_bytes, h]
  · intro bytes
    match bytes with
    | [] => rfl
    | status :: rest =>
      by_cases h : 0x80 ≤ status ∧ status < 0xF0
      · simp [should_route, get_channel_from_bytes, h, ChannelFilter.passes]
      · simp [should_route, get_channel_from_bytes, h]
  · intro c S n v
    have h1 : ∀ c : Fin 16, (0x90 ||| c.val) &&& 0x0F = c.val := by decide
    have h2 : ∀ c : Fin 16, 0x80 ≤ 0x90 ||| c.val ∧ 0x90 ||| c.val < 0xF0 := by decide
    simp [should_route, get_channel_from_bytes, h2 c, h1 c, ChannelFilter.passes]

/-- C10: a matched mapping all of whose targets carry empty channel lists
produces no output at all — `cc_passthrough` is not consulted once a mapping
has matched, so the message is silently dropped even on a passthrough
route. -/
theorem c10_matched_empty_channels_drop (bytes : List Nat) (route : Route)
    (m : CcMapping) (hcc : is_cc_message bytes = true)
    (hfind : route.cc_mappings.find? (fun x => x.source_cc == bytes.getD 1 0) = some m)
    (hempty : ∀ t ∈ m.targets, t.channels = []) :
    apply_cc_mappings bytes route = [] := by
  rw [apply_cc_mappings_matched bytes route m hcc hfind]
  rw [List.flatMap_eq_nil_iff]
  intro t ht
  simp [cc_target_outputs, hempty t ht]

/-- C10 witness: a passthrough route whose matched mapping has a single
target with no channels drops the CC packet. -/
theorem c10_matched_empty_channels_drop_witness :
    apply_cc_mappings [0xB0, 1, 100]
        ⟨"A", "B", true, .All, true, [⟨1, [⟨74, []⟩]⟩]⟩ = [] :=
  c10_matched_empty_channels_drop [0xB0, 1, 100]
    ⟨"A", "B", true, .All, true, [⟨1, [⟨74, []⟩]⟩]⟩
    ⟨1, [⟨74, []⟩]⟩ (by decide) (by rfl) (by decide)

/-! ### Theorems about the clock generator (`clock.rs`) -/

/-- Clamping into `[20, 300]` lands in `[20, 300]` for every non-NaN input. -/
lemma F64.clamp_20_300_inRange (y : F64) (hy : y ≠ F64.nan) :
    F64.inRange 20 300 (y.clamp (.finite 20) (.finite 300)) = true := by
  rcases y with _ | _ | _ | q
  · exact absurd rfl hy
  · decide
  · decide
  · simp only [F64.clamp, F64.lt, F64.inRange]
    split_ifs with h1 h2 <;> simp_all <;> constructor <;> linarith

/-- The operation `should_tick` never changes the bpm field. -/
lemma should_tick_bpm (c : ClockGenerator) (now : ℚ) :
    ((c.should_tick now).2).bpm = c.bpm := by
  rcases c with ⟨bpm, running, lt⟩
  cases running <;> cases lt <;>
    simp [ClockGenerator.should_tick] <;> split_ifs <;> rfl

/-- The bpm range invariant is preserved by every clock operation whose
argument is not NaN. -/
lemma bpm_inRange_applyClockOps (c : ClockGenerator) (ops : List ClockOp)
    (hc : F64.inRange 20 300 c.bpm = true)
    (hops : ∀ op ∈ ops, op.storesNan = false) :
    F64.inRange 20 300 (applyClockOps c ops).bpm = true := by
  induction ops generalizing c with
  | nil => simpa [applyClockOps] using hc
  | cons op ops ih =>
    have hstep : F64.inRange 20 300 (applyClockOp c op).bpm = true := by
      cases op with
      | setBpm y =>
        have hy : y ≠ F64.nan := by
          have h := hops (.setBpm y) (List.mem_cons_self _ _)
          intro hcontra
          subst hcontra
          simp [ClockOp.storesNan] at h
        simpa [applyClockOp, ClockGenerator.set_bpm] using F64.clamp_20_300_inRange y hy
      | start => simpa [applyClockOp, ClockGenerator.start] using hc
      | continuePlayback => simpa [applyClockOp, ClockGenerator.continue_playback] using hc
      | stop => simpa [applyClockOp, ClockGenerator.stop] using hc
      | shouldTick now =>
        have h := should_tick_bpm c now
        simpa [applyClockOp, h] using hc
    have hrest : ∀ op2 ∈ ops, ClockOp.storesNan op2 = false := fun op2 hop2 =>
      hops op2 (List.mem_cons_of_mem _ hop2)
    have := ih (applyClockOp c op) hstep hrest
    simpa [applyClockOps, List.foldl_cons] using this

/-- C9 counterexample: the bpm field does NOT always lie in `[20, 300]`: the
`f64` input NaN defeats the clamp (Rust `f64::clamp` returns NaN on NaN), so
after `set_bpm(NaN)` the stored bpm is NaN, outside every interval. -/
theorem c9_nan_counterexample :
    ((ClockGenerator.new (.finite 120)).set_bpm .nan).bpm = F64.nan
    ∧ F64.inRange 20 300 ((ClockGenerator.new (.finite 120)).set_bpm .nan).bpm = false := by
  decide

/-- C9 (amended): for every non-NaN `f64` input the constructor and `set_bpm`
store the input clamped into `[20, 300]` (19.9 → 20, 300.1 → 300, −∞ → 20,
+∞ → 300), `set_bpm` touches neither `last_tick` nor `running`, and no other
operation changes bpm, so after every sequence of clock operations none of
whose `set_bpm` arguments is NaN the bpm lies in `[20, 300]`. -/
theorem c9_bpm_always_clamped (x : F64) (ops : List ClockOp)
    (hx : x ≠ F64.nan) (hops : ∀ op ∈ ops, op.storesNan = false) :
    F64.inRange 20 300 (applyClockOps (ClockGenerator.new x) ops).bpm = true
    ∧ (ClockGenerator.new (.finite (199 / 10))).bpm = .finite 20
    ∧ (ClockGenerator.new (.finite (3001 / 10))).bpm = .finite 300
    ∧ (ClockGenerator.new .neginf).bpm = .finite 20
    ∧ (ClockGenerator.new .posinf).bpm = .finite 300
    ∧ ∀ (c : ClockGenerator) (y : F64),
        (c.set_bpm y).last_tick = c.last_tick ∧ (c.set_bpm y).running = c.running := by
  refine ⟨?_, ?_, ?_, by decide, by decide, fun c y => ⟨rfl, rfl⟩⟩
  · exact bpm_inRange_applyClockOps _ ops
      (by simpa [ClockGenerator.new] using F64.clamp_20_300_inRange x hx) hops
  · norm_num [ClockGenerator.new, F64.clamp, F64.lt]
  · norm_num [ClockGenerator.new, F64.clamp, F64.lt]

/-- C9 witness: starting from bpm 120 and running the sequence
`set_bpm(500); start; should_tick; stop`, the bpm stays in `[20, 300]`. -/
theorem c9_bpm_always_clamped_witness :
    F64.finite 120 ≠ F64.nan
    ∧ F64.inRange 20 300
        (applyClockOps (ClockGenerator.new (.finite 120))
          [.setBpm (.finite 500), .start, .shouldTick 1, .stop]).bpm = true :=
  ⟨by decide,
    (c9_bpm_always_clamped (.finite 120)
      [.setBpm (.finite 500), .start, .shouldTick 1, .stop]
      (by decide) (by decide)).1⟩

/-- C3: `should_tick`, as a function of the monotonic time `now` and the
state `{bpm, running, last_tick}` with `dt = 60/bpm/24` seconds: not running
→ false with no change; running with `last_tick` unset → true and
`last_tick := now`; running with `now − last_tick ≥ dt` → true and
`last_tick := last_tick + dt`, except that when the engine has fallen more
than `dt` behind the next expected tick (`now − (last_tick + dt) > dt`) it
resynchronizes with `last_tick := now`; otherwise false with no change. -/
theorem c3_should_tick_spec (c : ClockGenerator) (now q : ℚ)
    (hbpm : c.bpm = F64.finite q) (hq : 0 < q) :
    (c.running = false → c.should_tick now = (false, c))
    ∧ (c.running = true → c.last_tick = none →
        c.should_tick now = (true, { c with last_tick := some now }))
    ∧ ∀ last, c.running = true → c.last_tick = some last →
        (60 / q / 24 ≤ now - last →
          c.should_tick now = (true, { c with
            last_tick := some (if 60 / q / 24 < now - (last + 60 / q / 24) then now
              else last + 60 / q / 24) }))
        ∧ (now - last < 60 / q / 24 → c.should_tick now = (false, c)) := by
  have hdt : (0 : ℚ) < 60 / q / 24 := by positivity
  have hint : c.clock_interval = 60 / q / 24 := by
    rw [ClockGenerator.clock_interval, hbpm]
    norm_num [F64.toRat, ClockGenerator.PULSES_PER_QUARTER_NOTE]
  obtain ⟨bpm, running, lt⟩ := c
  simp only at hbpm
  subst hbpm
  refine ⟨?_, ?_, ?_⟩
  · intro hr
    subst hr
    simp [ClockGenerator.should_tick]
  · intro hr hnone
    subst hr
    subst hnone
    simp [ClockGenerator.should_tick]
  · intro last hr hsome
    subst hr
    subst hsome
    constructor
    · intro hge
      have h1 : ClockGenerator.duration_since now last ≥ 60 / q / 24 :=
        le_max_of_le_left hge
      have hcond : (ClockGenerator.duration_since now (last + 60 / q / 24) > 60 / q / 24)
          ↔ 60 / q / 24 < now - (last + 60 / q / 24) := by
        unfold ClockGenerator.duration_since
        constructor
        · intro h
          rcases le_total (now - (last + 60 / q / 24)) 0 with h0 | h0
          · rw [max_eq_right h0] at h
            linarith
          · rwa [max_eq_left h0] at h
        · intro h
          rw [max_eq_left (by linarith)]
          exact h
      simp only [ClockGenerator.should_tick, hint, Bool.not_true, Bool.false_eq_true,
        if_false, ge_iff_le, decide_eq_true_eq]
      rw [if_pos h1]
      simp only [hcond]
    · intro hlt
      have h2 : ¬ (60 / q / 24 ≤ ClockGenerator.duration_since now last) := by
        unfold ClockGenerator.duration_since
        rw [not_le]
        exact max_lt hlt hdt
      simp only [ClockGenerator.should_tick, hint, Bool.not_true, Bool.false_eq_true,
        if_false, ge_iff_le, decide_eq_true_eq]
      rw [if_neg h2]

/-- C3 witness: at 120 BPM (`dt = 1/48` s) with `last_tick = 0`, the instant
`now = 1` has fallen more than `dt` behind the next expected tick, so the
tick fires and the schedule resynchronizes to `last_tick = now = 1`. -/
theorem c3_should_tick_spec_witness :
    (⟨F64.finite 120, true, some 0⟩ : ClockGenerator).should_tick 1
      = (true, ⟨F64.finite 120, true, some 1⟩) := by
  have h := ((c3_should_tick_spec ⟨F64.finite 120, true, some 0⟩ 1 120 rfl
    (by norm_num)).2.2 0 rfl rfl).1 (by norm_num)
  rw [h]
  norm_num

/-! ### Theorems about the engine loop step (`engine.rs`) -/

/-- C2 counterexample: an inbound Start packet does NOT reset the schedule
when the clock is already running.  With `running = true` and
`last_tick = some 5`, processing `[0xFA]` leaves the clock — including
`last_tick` — unchanged: `last_tick` is not cleared. -/
theorem c2_start_already_running_counterexample :
    (process_midi_packet (fun _ => none) []
        ⟨F64.finite 120, true, some 5⟩ "A" 0 [0xFA]).clock
      = ⟨F64.finite 120, true, some 5⟩
    ∧ (process_midi_packet (fun _ => none) []
        ⟨F64.finite 120, true, some 5⟩ "A" 0 [0xFA]).clock.last_tick ≠ none := by
  decide

/-- C2 (amended): for every inbound packet whose first byte is Start (0xFA),
the engine broadcasts `[0xFA]` to all outputs and dispatches it to no route;
when the clock was not running, the clock is started — running becomes true
and the schedule is reset (`last_tick` cleared, so the next tick fires
immediately) — and `ClockStateChanged` is emitted first; when the clock was
already running, the clock (schedule included) is left unchanged and no
`ClockStateChanged` is emitted, matching the fact that the observable clock
state did not change. -/
theorem c2_start_packet (wmidi : WmidiDecoder) (routes : List Route)
    (clock : ClockGenerator) (port : String) (ts : Nat) (rest : List Nat) :
    (process_midi_packet wmidi routes clock port ts (START :: rest)).broadcasts = [[START]]
    ∧ (process_midi_packet wmidi routes clock port ts (START :: rest)).sends = []
    ∧ (clock.running = false →
        (process_midi_packet wmidi routes clock port ts (START :: rest)).clock
          = { clock with running := true, last_tick := none }
        ∧ (process_midi_packet wmidi routes clock port ts (START :: rest)).events.head?
          = some (.ClockStateChanged ⟨clock.bpm, true⟩))
    ∧ (clock.running = true →
        (process_midi_packet wmidi routes clock port ts (START :: rest)).clock = clock
        ∧ ∀ s, EngineEvent.ClockStateChanged s ∉
            (process_midi_packet wmidi routes clock port ts (START :: rest)).events) := by
  have htr : is_transport_message ((0xFA : Nat) :: rest) = true := by
    simp [is_transport_message, CLOCK, START, CONTINUE, STOP]
  refine ⟨?_, ?_, ?_, ?_⟩
  · cases hrun : clock.running <;>
      simp [process_midi_packet, htr, hrun, START]
  · simp [process_midi_packet, htr, START]
  · intro hrun
    refine ⟨?_, ?_⟩
    · simp [process_midi_packet, htr, hrun, START, ClockGenerator.start]
    · simp [process_midi_packet, htr, hrun, START, clockStateOf, ClockGenerator.start]
  · intro hrun
    refine ⟨?_, ?_⟩
    · simp [process_midi_packet, htr, hrun, START]
    · intro s
      cases hp : parse_midi_message wmidi ts port ((0xFA : Nat) :: rest) <;>
        simp [process_midi_packet, htr, hrun, START, hp]

/-- C2 witness: the amended statement at a stopped clock processing the
single-byte packet `[0xFA]`. -/
theorem c2_start_packet_witness :
    (process_midi_packet (fun _ => none) []
        ⟨F64.finite 120, false, none⟩ "A" 0 [0xFA]).broadcasts = [[0xFA]]
    ∧ (process_midi_packet (fun _ => none) []
        ⟨F64.finite 120, false, none⟩ "A" 0 [0xFA]).clock
      = ⟨F64.finite 120, true, none⟩
    ∧ (process_midi_packet (fun _ => none) []
        ⟨F64.finite 120, false, none⟩ "A" 0 [0xFA]).events.head?
      = some (.ClockStateChanged ⟨F64.finite 120, true⟩) := by
  have h := c2_start_packet (fun _ => none) [] ⟨F64.finite 120, false, none⟩ "A" 0 []
  exact ⟨h.1, (h.2.2.1 rfl).1, (h.2.2.1 rfl).2⟩

/-- C8: a packet whose first byte is Clock, Start, Continue or Stop is never
dispatched through per-route routing — the engine step produces no
`send_to` call for any route — while, for the single-byte form in which
these system real-time messages arrive, its `MidiActivity` event is still
published. -/
theorem c8_transport_not_routed (wmidi : WmidiDecoder) (routes : List Route)
    (clock : ClockGenerator) (port : String) (ts : Nat) (b : Nat) (rest : List Nat)
    (hb : b = CLOCK ∨ b = START ∨ b = CONTINUE ∨ b = STOP) :
    (process_midi_packet wmidi routes clock port ts (b :: rest)).sends = []
    ∧ (rest = [] → ∃ a : MidiActivity,
        EngineEvent.MidiActivityEv a ∈
          (process_midi_packet wmidi routes clock port ts (b :: rest)).events
        ∧ a.raw = [b] ∧ a.port = port ∧ a.timestamp = ts) := by
  have htr : is_transport_message (b :: rest) = true := by
    rcases hb with h | h | h | h <;> subst h <;>
      simp [is_transport_message, CLOCK, START, CONTINUE, STOP]
  constructor
  · simp [process_midi_packet, htr]
  · rintro rfl
    rcases hb with h | h | h | h <;> subst h
    · refine ⟨⟨ts, port, none, .Clock, [CLOCK]⟩, ?_, rfl, rfl, rfl⟩
      cases hrun : clock.running <;>
        simp [process_midi_packet, is_transport_message, parse_midi_message,
          CLOCK, START, CONTINUE, STOP, hrun]
    · refine ⟨⟨ts, port, none, .Start, [START]⟩, ?_, rfl, rfl, rfl⟩
      cases hrun : clock.running <;>
        simp [process_midi_packet, is_transport_message, parse_midi_message,
          CLOCK, START, CONTINUE, STOP, hrun]
    · refine ⟨⟨ts, port, none, .Continue, [CONTINUE]⟩, ?_, rfl, rfl, rfl⟩
      cases hrun : clock.running <;>
        simp [process_midi_packet, is_transport_message, parse_midi_message,
          CLOCK, START, CONTINUE, STOP, hrun]
    · refine ⟨⟨ts, port, none, .Stop, [STOP]⟩, ?_, rfl, rfl, rfl⟩
      cases hrun : clock.running <;>
        simp [process_midi_packet, is_transport_message, parse_midi_message,
          CLOCK, START, CONTINUE, STOP, hrun]

/-- C8 witness: the inbound packet `[0xFA]` on port `A`, with an enabled
route from `A`, is not dispatched to the route while its activity event is
still published. -/
theorem c8_transport_not_routed_witness :
    ((0xFA : Nat) = CLOCK ∨ (0xFA : Nat) = START
      ∨ (0xFA : Nat) = CONTINUE ∨ (0xFA : Nat) = STOP)
    ∧ (process_midi_packet (fun _ => none) [⟨"A", "B", true, .All, true, []⟩]
        ⟨F64.finite 120, false, none⟩ "A" 0 [0xFA]).sends = []
    ∧ ∃ a : MidiActivity,
        EngineEvent.MidiActivityEv a ∈
          (process_midi_packet (fun _ => none) [⟨"A", "B", true, .All, true, []⟩]
            ⟨F64.finite 120, false, none⟩ "A" 0 [0xFA]).events
        ∧ a.raw = [0xFA] ∧ a.port = "A" ∧ a.timestamp = 0 := by
  have h := c8_transport_not_routed (fun _ => none) [⟨"A", "B", true, .All, true, []⟩]
    ⟨F64.finite 120, false, none⟩ "A" 0 0xFA [] (Or.inr (Or.inl rfl))
  exact ⟨Or.inr (Or.inl rfl), h.1, h.2 rfl⟩

end MidiRouter
